import Mathlib

/-!
# Verification of the job-finder backend's extraction pipelines

Shallow embedding of the repository's two extraction pipelines:

* the resume pipeline (`resume_parser.py`): regex-based extraction of the
  email, phone and skills fields from PDF-extracted text;
* the scrape pipeline (`main.py` / `linkedin_scraper.py`): experience-level
  derivation, search-query construction, per-card listing extraction and
  categorization of the scraped listings.

Text is modelled as `List Char`; Python regular-expression search is embedded
as an explicit backtracking matcher for the concrete patterns that appear in
the source.  Fallible steps (browser launch) are modelled with `Except`.
-/

namespace JobFinder

/-- Text is a list of characters; `toL` converts a literal. -/
def toL (s : String) : List Char := s.data

/-- Python `\w` over ASCII input: letters, digits and underscore. -/
def isWordChar (c : Char) : Bool := c.isAlphanum || c == '_'

/-- Character class `[A-Za-z0-9._%+-]` (the local part of the email pattern). -/
def isLocalChar (c : Char) : Bool :=
  c.isAlphanum || c == '.' || c == '_' || c == '%' || c == '+' || c == '-'

/-- Character class `[A-Za-z0-9.-]` (the domain part of the email pattern). -/
def isDomainChar (c : Char) : Bool := c.isAlphanum || c == '.' || c == '-'

/-- Character class `[A-Z|a-z]` of the email pattern: note that the source's
class literally contains the bar character. -/
def isTldChar (c : Char) : Bool := c.isAlpha || c == '|'

/-- Python `\s` over ASCII input. -/
def isSpaceChar (c : Char) : Bool :=
  c == ' ' || c == '\t' || c == '\n' || c == '\r' || c == '\x0b' || c == '\x0c'

/-- Character at position `i`, NUL (a non-word, non-class character) when out
of range; mirrors how a regex engine treats the end of the subject. -/
def charAt (s : List Char) (i : Nat) : Char := s.getD i (Char.ofNat 0)

/-- Is the character at `i` a word character (out of range counts as no)? -/
def wordAt (s : List Char) (i : Nat) : Bool := isWordChar (charAt s i)

/-- Python `\b` at position `i`: the two sides disagree on word-ness. -/
def boundary (s : List Char) (i : Nat) : Bool :=
  (if i == 0 then false else wordAt s (i - 1)) != wordAt s i

/-- Length of the maximal run of characters satisfying `p` at the head. -/
def runLen (p : Char → Bool) : List Char → Nat
  | [] => 0
  | c :: cs => if p c then runLen p cs + 1 else 0

/-- End position of the maximal run of `p`-characters starting at `i`. -/
def runEnd (p : Char → Bool) (s : List Char) (i : Nat) : Nat :=
  i + runLen p (s.drop i)

/-- Try positions `lo + n - 1`, `lo + n - 2`, …, `lo` in that order and return
the first `some`; this is the order in which a greedy quantifier gives
characters back while backtracking. -/
def downFirst (f : Nat → Option Nat) (lo : Nat) : Nat → Option Nat
  | 0 => none
  | n + 1 =>
    match f (lo + n) with
    | some r => some r
    | none => downFirst f lo n

/-- Match `[A-Z|a-z]{2,}\b` at `start`: greedy run of at least two class
characters, shrunk until the trailing `\b` holds; returns the end position. -/
def tryTld (s : List Char) (start : Nat) : Option Nat :=
  let q := runEnd isTldChar s start
  if q < start + 2 then none
  else downFirst (fun j => if boundary s j then some j else none)
    (start + 2) (q - (start + 2) + 1)

/-- Match the email pattern `\b[A-Za-z0-9._%+-]+@[A-Za-z0-9.-]+\.[A-Z|a-z]{2,}\b`
at position `i`, returning the end position of the match.  The local part is
greedy (no useful backtracking: `@` is not a local character); the domain part
backtracks from its maximal run to find the literal dot. -/
def matchEmailAt (s : List Char) (i : Nat) : Option Nat :=
  if !boundary s i then none
  else
    let k := runEnd isLocalChar s i
    if k == i then none
    else if !(charAt s k == '@') then none
    else
      let dstart := k + 1
      let m := runEnd isDomainChar s dstart
      downFirst (fun p => if charAt s p == '.' then tryTld s (p + 1) else none)
        (dstart + 1) (m - dstart)

/-- Leftmost, non-overlapping scan of `re.findall`: try each start position in
order; on a match, emit it and resume at its end. `fuel` bounds the recursion
(`s.length + 1` suffices since the position strictly increases). -/
def findAllGo (s : List Char) : Nat → Nat → List (List Char)
  | _, 0 => []
  | i, fuel + 1 =>
    if s.length ≤ i then []
    else
      match matchEmailAt s i with
      | some j => ((s.drop i).take (j - i)) :: findAllGo s j fuel
      | none => findAllGo s (i + 1) fuel

/-- `re.findall(email_pattern, text)`. -/
def findAllEmails (s : List Char) : List (List Char) :=
  findAllGo s 0 (s.length + 1)

/-- `resume_parser.extract_email`: `emails[0] if emails else None` — the first
raw match; no denylist is applied in this function. -/
def extract_email (text : List Char) : Option (List Char) :=
  (findAllEmails text).head?

/-- `needle` occurs at the head of the haystack. -/
def startsWith : List Char → List Char → Bool
  | [], _ => true
  | _ :: _, [] => false
  | a :: as, b :: bs => a == b && startsWith as bs

/-- Python's `needle in hay` substring test. -/
def containsSub (needle : List Char) : List Char → Bool
  | [] => startsWith needle []
  | c :: cs => startsWith needle (c :: cs) || containsSub needle cs

/-- `linkedin_scraper`'s generic-address denylist:
`any(x in email.lower() for x in ['noreply', 'no-reply', 'donotreply'])`. -/
def denylisted (e : List Char) : Bool :=
  let lo := e.map Char.toLower
  containsSub (toL "noreply") lo || containsSub (toL "no-reply") lo ||
    containsSub (toL "donotreply") lo

/-- `linkedin_scraper.extract_email_from_text`: empty text short-circuits to
`[]`; otherwise every match of the email pattern that survives the denylist is
returned, in document order. -/
def extract_email_from_text (text : List Char) : List (List Char) :=
  if text.isEmpty then []
  else (findAllEmails text).filter (fun e => !denylisted e)

/-! ## Phone extraction (`resume_parser.extract_phone`)

The four patterns of `phone_patterns`, embedded as positional matchers that
return the end of the match attempted at a given start position. -/

/-- All of `s[i]`, …, `s[i+n-1]` are decimal digits (and in range). -/
def digitsAt (s : List Char) (i n : Nat) : Bool :=
  (List.range n).all (fun d => (charAt s (i + d)).isDigit)

/-- Pattern 1, `\+91[-\s]?\d{10}`: the optional separator class is greedy, so
the separator-consuming branch is tried before the empty one. -/
def matchPhone1At (s : List Char) (i : Nat) : Option Nat :=
  if charAt s i == '+' && charAt s (i + 1) == '9' && charAt s (i + 2) == '1' then
    let j := i + 3
    if (charAt s j == '-' || isSpaceChar (charAt s j)) && digitsAt s (j + 1) 10 then
      some (j + 11)
    else if digitsAt s j 10 then some (j + 10)
    else none
  else none

/-- Pattern 2, `\+91\d{10}`. -/
def matchPhone2At (s : List Char) (i : Nat) : Option Nat :=
  if charAt s i == '+' && charAt s (i + 1) == '9' && charAt s (i + 2) == '1'
      && digitsAt s (i + 3) 10 then
    some (i + 13)
  else none

/-- Pattern 3, `\d{10}`. -/
def matchPhone3At (s : List Char) (i : Nat) : Option Nat :=
  if digitsAt s i 10 then some (i + 10) else none

/-- Pattern 4, `\d{5}\s?\d{5}`: the optional whitespace is greedy. -/
def matchPhone4At (s : List Char) (i : Nat) : Option Nat :=
  if digitsAt s i 5 then
    let j := i + 5
    if isSpaceChar (charAt s j) && digitsAt s (j + 1) 5 then some (j + 6)
    else if digitsAt s j 5 then some (i + 10)
    else none
  else none

/-- Leftmost match of a positional matcher: the substring of the first start
position at which the matcher succeeds (this is `re.findall(...)[0]`). -/
def firstMatchGo (m : List Char → Nat → Option Nat) (s : List Char) :
    Nat → Nat → Option (List Char)
  | _, 0 => none
  | i, fuel + 1 =>
    if s.length ≤ i then none
    else
      match m s i with
      | some j => some ((s.drop i).take (j - i))
      | none => firstMatchGo m s (i + 1) fuel

/-- First match of a pattern anywhere in the text. -/
def firstMatch (m : List Char → Nat → Option Nat) (s : List Char) :
    Option (List Char) :=
  firstMatchGo m s 0 (s.length + 1)

/-- The normalization `phones[0].replace(' ', '').replace('-', '')`. -/
def stripSep (l : List Char) : List Char :=
  l.filter (fun c => !(c == ' ' || c == '-'))

/-- `resume_parser.extract_phone`: the patterns are tried in their fixed order;
the first pattern with any match anywhere wins and its leftmost match is
returned, normalized; `None` when no pattern matches. -/
def extract_phone (text : List Char) : Option (List Char) :=
  match firstMatch matchPhone1At text with
  | some r => some (stripSep r)
  | none =>
    match firstMatch matchPhone2At text with
    | some r => some (stripSep r)
    | none =>
      match firstMatch matchPhone3At text with
      | some r => some (stripSep r)
      | none =>
        match firstMatch matchPhone4At text with
        | some r => some (stripSep r)
        | none => none

/-! ## Skills extraction (`resume_parser.extract_skills`) -/

/-- The fixed skill vocabulary of `resume_parser.extract_skills`. -/
def skill_keywords : List String :=
  ["python", "javascript", "java", "react", "node", "fastapi",
   "flask", "django", "html", "css", "sql", "mysql", "mongodb",
   "tensorflow", "pytorch", "scikit-learn", "pandas", "numpy",
   "langchain", "llm", "nlp", "machine learning", "deep learning",
   "ai", "artificial intelligence", "git", "github", "docker",
   "aws", "azure", "gcp", "api", "rest", "graphql",
   "typescript", "angular", "vue", "express", "bootstrap",
   "tailwind", "redux", "nextjs", "nestjs", "spring boot",
   "c++", "c#", "ruby", "php", "swift", "kotlin", "rust",
   "opencv", "keras", "spark", "hadoop", "kafka", "redis",
   "faiss", "hugging face", "rag", "semantic search"]

/-- Python `str.title()` over ASCII: a letter is uppercased when the previous
character is not a letter, lowercased otherwise; the flag carries whether the
previous character was a (cased) letter. -/
def pyTitleGo : Bool → List Char → List Char
  | _, [] => []
  | prevAlpha, c :: cs =>
    if c.isAlpha then
      (if prevAlpha then c.toLower else c.toUpper) :: pyTitleGo true cs
    else c :: pyTitleGo false cs

/-- Python `str.title()`. -/
def pyTitle (l : List Char) : List Char := pyTitleGo false l

/-- `resume_parser.extract_skills`: lowercase the text, keep every vocabulary
term that occurs as a substring, title-case it, and deduplicate.  The source's
final `list(set(...))` has an unspecified iteration order; the embedding
deduplicates keeping first occurrences, and only membership in the result is
relied on by the theorems. -/
def extract_skills (text : List Char) : List (List Char) :=
  let text_lower := text.map Char.toLower
  ((((skill_keywords.map toL).filter
      (fun sk => containsSub sk text_lower)).map pyTitle)).dedup

/-! ## PDF text extraction (`resume_parser.extract_text_from_pdf` and the
`fitz` loop of `main.py`'s `upload_resume`)

A document is modelled as the sequence of its pages' extracted text, a page
with no extractable text contributing the empty string.  Both source loops are
`text = ""; for page in pages: text += pageText(page)`. -/

/-- The accumulation loop of `extract_text_from_pdf`. -/
def extract_text_from_pdf (pages : List String) : String :=
  pages.foldl (fun text p => text ++ p) ""

/-- Plain concatenation of the pages in document order, no separator: the
contract the spec states for `extractText`. -/
def concatPages : List String → String
  | [] => ""
  | p :: ps => p ++ concatPages ps

/-! ## Scrape pipeline (`main.py.scrape_linkedin_jobs` and
`linkedin_scraper.scrape_linkedin_jobs`) -/

/-- Python `str.strip()` over ASCII input: whitespace removed from both ends. -/
def stripL (l : List Char) : List Char :=
  ((l.dropWhile isSpaceChar).reverse.dropWhile isSpaceChar).reverse

/-- Python `str.strip()` on `String`. -/
def pyStrip (s : String) : String := String.mk (stripL s.data)

/-- `main.py`'s experience-level derivation (lines 252-259): the four branches
`== 0`, `<= 2`, `<= 5`, else.  The spec's `ExperienceLevel` enum names these
buckets `Internship`, `Entry`, `Associate`, `Senior`; `main.py` renders them
as the strings below. -/
def experience_level_main (experience_years : Int) : String :=
  if experience_years = 0 then "Internship"
  else if experience_years ≤ 2 then "Entry level"
  else if experience_years ≤ 5 then "Associate"
  else "Mid-Senior level"

/-- `linkedin_scraper`'s experience filter (lines 84-96): the URL suffix added
for each bucket, nothing at all when `experience_years is None`. -/
def exp_filter_ls (experience_years : Option Int) : String :=
  match experience_years with
  | none => ""
  | some y =>
    if y = 0 then "&f_E=1"
    else if y ≤ 2 then "&f_E=1,2"
    else if y ≤ 5 then "&f_E=3,4"
    else "&f_E=5,6"

/-- `str.replace(" ", "%20")` at the character level. -/
def encodeSpacesL : List Char → List Char
  | [] => []
  | c :: cs =>
    if c == ' ' then '%' :: '2' :: '0' :: encodeSpacesL cs
    else c :: encodeSpacesL cs

/-- `search_query.replace(" ", "%20")`. -/
def encode_spaces (s : String) : String := String.mk (encodeSpacesL s.data)

/-- `main.py`'s query construction (lines 261-265): first three skills joined
with spaces, the experience level appended, then spaces of the query and of
the location replaced by `%20`.  Returns `(encoded_query, encoded_location)`. -/
def buildQueryMain (skills : List String) (location lvl : String) :
    String × String :=
  let skills_query := String.intercalate " " (skills.take 3)
  let search_query := skills_query ++ " " ++ lvl
  (encode_spaces search_query, encode_spaces location)

/-- `linkedin_scraper`'s keyword string (line 77): first three skills joined
with `+`, no further encoding. -/
def keywordsLS (skills : List String) : String :=
  String.intercalate "+" (skills.take 3)

/-- `linkedin_scraper`'s base search URL (line 80): keywords and location are
interpolated as-is. -/
def urlLS (skills : List String) (location : String) : String :=
  "https://www.linkedin.com/jobs/search/?keywords=" ++ keywordsLS skills ++
    "&location=" ++ location

/-- `linkedin_scraper`'s full search URL: the base URL plus the experience
filter suffix (lines 80-96). -/
def urlLSFull (skills : List String) (location : String)
    (experience_years : Option Int) : String :=
  urlLS skills location ++ exp_filter_ls experience_years

/-- One candidate job card: each field holds the text (for the link, the
`href`) of the corresponding DOM element, `none` when the element is missing
from the card. -/
structure Card where
  title_elem : Option String
  company_elem : Option String
  location_elem : Option String
  link_elem : Option String
deriving DecidableEq

/-- A job record as built by `main.py` (lines 293-299). -/
structure Job where
  title : String
  company : String
  location : String
  link : String
  experience_level : String
deriving DecidableEq

/-- A job record as built by `linkedin_scraper` (lines 126-133): it also
carries the 1-based card index and an `hr_email` initialized to `None`. -/
structure JobLS where
  id : Nat
  title : String
  company : String
  location : String
  link : String
  hr_email : Option String
deriving DecidableEq

/-- `main.py`'s per-card parse (lines 286-304): the card yields a job iff
title, company and link elements are all present (`if title_elem and
company_elem and link_elem`); a missing location is replaced by the requested
`location` argument (`location_elem.text.strip() if location_elem else
location`). -/
def parseCard (location lvl : String) (c : Card) : Option Job :=
  match c.title_elem, c.company_elem, c.link_elem with
  | some t, some co, some l =>
    some { title := pyStrip t, company := pyStrip co,
           location := match c.location_elem with
             | some loc => pyStrip loc
             | none => location,
           link := l, experience_level := lvl }
  | _, _, _ => none

/-- `main.py`'s card loop and return (lines 285-315): iterate the first
`max_jobs * 2` cards, keep the parsable ones in order, and return
`jobs[:max_jobs]`. -/
def extractJobs (cards : List Card) (max_jobs : Nat) (location lvl : String) :
    List Job :=
  (((cards.take (max_jobs * 2)).filterMap (parseCard location lvl)).take
    max_jobs)

/-- `linkedin_scraper`'s per-card parse (lines 108-140): each field is read
with `find_element`, which raises when the element is missing; the
`try/except/continue` therefore skips the card when ANY of the four elements —
including the location — is absent. -/
def parseCardLS (idx : Nat) (c : Card) : Option JobLS :=
  match c.title_elem with
  | none => none
  | some t =>
    match c.company_elem with
    | none => none
    | some co =>
      match c.location_elem with
      | none => none
      | some loc =>
        match c.link_elem with
        | none => none
        | some l =>
          some { id := idx, title := pyStrip t, company := pyStrip co,
                 location := pyStrip loc, link := l, hr_email := none }

/-- `linkedin_scraper`'s card loop (line 108): `enumerate(job_cards[:max_jobs],
1)` — only the first `max_jobs` cards are visited, and the index counts
attempted cards, skipped ones included. -/
def extractJobsLS (cards : List Card) (max_jobs : Nat) : List JobLS :=
  (List.enumFrom 1 (cards.take max_jobs)).filterMap
    (fun ic => parseCardLS ic.1 ic.2)

/-- `main.py.scrape_linkedin_jobs`, browser-launch step included: the driver
is constructed at line 247, BEFORE the `try` of line 250, so a launch failure
propagates to the caller; on success the rendered cards are extracted.  The
rendered page is modelled by the card list the browser session would
produce. -/
def scrapeMain (launch : Except String Unit) (cards : List Card)
    (max_jobs : Nat) (location lvl : String) : Except String (List Job) :=
  match launch with
  | .error e => .error e
  | .ok _ => .ok (extractJobs cards max_jobs location lvl)

/-- `linkedin_scraper.scrape_linkedin_jobs`, browser-launch step included:
`setup_driver()` is called inside the `try` (line 74), and the `except` of
lines 145-147 turns any failure into the empty job list. -/
def scrapeLS (launch : Except String Unit) (cards : List Card)
    (max_jobs : Nat) : List JobLS :=
  match launch with
  | .error _ => []
  | .ok _ => extractJobsLS cards max_jobs

/-- Python truthiness of `job.get('hr_email')`: `None` and the empty string
are falsy. -/
def hr_truthy (j : JobLS) : Bool :=
  match j.hr_email with
  | none => false
  | some s => !(s == "")

/-- The result record of `linkedin_scraper.categorize_jobs`. -/
structure CategorizedJobs where
  direct_contact_jobs : List JobLS
  standard_jobs : List JobLS
  total_jobs : Nat
  jobs_with_email : Nat
  jobs_without_email : Nat
deriving DecidableEq

/-- The partition loop of `categorize_jobs` (lines 177-181): each job is
appended to exactly one of the two lists, in input order. -/
def categorizeLoop : List JobLS → List JobLS × List JobLS
  | [] => ([], [])
  | j :: js =>
    let p := categorizeLoop js
    if hr_truthy j then (j :: p.1, p.2) else (p.1, j :: p.2)

/-- `linkedin_scraper.categorize_jobs` (lines 168-189). -/
def categorize_jobs (jobs : List JobLS) : CategorizedJobs :=
  let p := categorizeLoop jobs
  { direct_contact_jobs := p.1, standard_jobs := p.2,
    total_jobs := jobs.length, jobs_with_email := p.1.length,
    jobs_without_email := p.2.length }

/-! ## Concrete data for the witnesses -/

/-- A fully populated demo card. -/
def demoCard (t : String) : Card :=
  ⟨some t, some "Acme", some "Remote", some "jobs.example/apply"⟩

/-- A demo card whose title element is missing. -/
def demoBad : Card := ⟨none, some "Acme", some "Remote", some "jobs.example/apply"⟩

/-! ## Helper lemmas -/

/-- The accumulation loop equals prepending the accumulator to the plain
page concatenation. -/
theorem foldl_append_concatPages (l : List String) (a : String) :
    l.foldl (fun text p => text ++ p) a = a ++ concatPages l := by
  induction l generalizing a with
  | nil => simp [concatPages]
  | cons p ps ih => simp [concatPages, ih, String.append_assoc]

/-- Empty pages contribute nothing to the concatenation. -/
theorem concatPages_middle_empty (xs ys : List String) :
    concatPages (xs ++ "" :: ys) = concatPages (xs ++ ys) := by
  induction xs with
  | nil => simp [concatPages]
  | cons p ps ih => simp [concatPages, ih]

/-- The categorize loop is the pair of order-preserving filters. -/
theorem categorizeLoop_eq_filter (jobs : List JobLS) :
    categorizeLoop jobs =
      (jobs.filter hr_truthy, jobs.filter fun j => !hr_truthy j) := by
  induction jobs with
  | nil => rfl
  | cons j js ih =>
    cases h : hr_truthy j <;> simp [categorizeLoop, ih, List.filter_cons, h]

/-- Complementary filters split the length. -/
theorem length_filter_add_length_filter_not {α : Type} (p : α → Bool)
    (l : List α) :
    (l.filter p).length + (l.filter fun a => !p a).length = l.length := by
  induction l with
  | nil => rfl
  | cons a as ih => cases h : p a <;> simp [List.filter_cons, h, ← ih] <;> omega

/-- Complementary filters split the multiplicity of every element. -/
theorem count_filter_add_count_filter_not {α : Type} [DecidableEq α]
    (p : α → Bool) (l : List α) (a : α) :
    (l.filter p).count a + (l.filter fun x => !p x).count a = l.count a := by
  induction l with
  | nil => rfl
  | cons b bs ih =>
    rcases eq_or_ne b a with hba | hba
    · subst hba
      cases h : p b
      · rw [show List.filter p (b :: bs) = List.filter p bs by
            simp [List.filter_cons, h],
          show List.filter (fun x => !p x) (b :: bs) =
              b :: List.filter (fun x => !p x) bs by
            simp [List.filter_cons, h],
          List.count_cons_self, List.count_cons_self]
        omega
      · rw [show List.filter p (b :: bs) = b :: List.filter p bs by
            simp [List.filter_cons, h],
          show List.filter (fun x => !p x) (b :: bs) =
              List.filter (fun x => !p x) bs by
            simp [List.filter_cons, h],
          List.count_cons_self, List.count_cons_self]
        omega
    · cases h : p b
      · rw [show List.filter p (b :: bs) = List.filter p bs by
            simp [List.filter_cons, h],
          show List.filter (fun x => !p x) (b :: bs) =
              b :: List.filter (fun x => !p x) bs by
            simp [List.filter_cons, h],
          List.count_cons_of_ne hba.symm, List.count_cons_of_ne hba.symm]
        exact ih
      · rw [show List.filter p (b :: bs) = b :: List.filter p bs by
            simp [List.filter_cons, h],
          show List.filter (fun x => !p x) (b :: bs) =
              List.filter (fun x => !p x) bs by
            simp [List.filter_cons, h],
          List.count_cons_of_ne hba.symm, List.count_cons_of_ne hba.symm]
        exact ih

/-- A card missing its title, company or link element parses to nothing in
`main.py`'s extractor. -/
theorem parseCard_eq_none (loc lvl : String) (c : Card)
    (h : c.title_elem = none ∨ c.company_elem = none ∨ c.link_elem = none) :
    parseCard loc lvl c = none := by
  obtain ⟨t, co, lo, li⟩ := c
  dsimp only at h
  rcases h with h | h | h <;> subst h
  · rcases co with _ | c2 <;> rcases li with _ | l2 <;> rfl
  · rcases t with _ | t2 <;> rcases li with _ | l2 <;> rfl
  · rcases t with _ | t2 <;> rcases co with _ | c2 <;> rfl

/-- A card missing its title, company or link element parses to nothing in
`linkedin_scraper`'s extractor as well (there even a missing location skips
the card, but that case has its own statement). -/
theorem parseCardLS_eq_none (i : Nat) (c : Card)
    (h : c.title_elem = none ∨ c.company_elem = none ∨ c.link_elem = none) :
    parseCardLS i c = none := by
  obtain ⟨t, co, lo, li⟩ := c
  dsimp only at h
  rcases h with h | h | h <;> subst h
  · rfl
  · rcases t with _ | t2 <;> rfl
  · rcases t with _ | t2 <;> rcases co with _ | c2 <;>
      rcases lo with _ | l2 <;> rfl

/-- `enumFrom` distributes over append, the counter continuing past the first
part. -/
theorem enumFrom_append {α : Type} (k : Nat) (xs ys : List α) :
    List.enumFrom k (xs ++ ys) =
      List.enumFrom k xs ++ List.enumFrom (k + xs.length) ys := by
  induction xs generalizing k with
  | nil => simp
  | cons a as ih =>
    have h1 : List.enumFrom k ((a :: as) ++ ys) =
        (k, a) :: List.enumFrom (k + 1) (as ++ ys) := rfl
    have h2 : List.enumFrom k (a :: as) = (k, a) :: List.enumFrom (k + 1) as :=
      rfl
    rw [h1, h2, ih (k + 1), List.length_cons, List.cons_append,
      show k + (as.length + 1) = k + 1 + as.length by omega]

/-- Taking a prefix commutes with `filterMap` when every element maps to
`some`. -/
theorem take_filterMap_of_isSome {α β : Type} (p : α → Option β) :
    ∀ (l : List α) (n : Nat), (∀ c ∈ l, (p c).isSome) →
      (l.filterMap p).take n = (l.take n).filterMap p := by
  intro l
  induction l with
  | nil => intro n _; simp
  | cons a as ih =>
    intro n h
    cases n with
    | zero => simp
    | succ m =>
      obtain ⟨b, hb⟩ := Option.isSome_iff_exists.mp (h a (by simp))
      simp [List.filterMap_cons, hb,
        ih m (fun c hc => h c (List.mem_cons_of_mem a hc))]

/-- `filterMap` keeps the length when every element maps to `some`. -/
theorem length_filterMap_of_isSome {α β : Type} (p : α → Option β)
    (l : List α) (h : ∀ c ∈ l, (p c).isSome) :
    (l.filterMap p).length = l.length := by
  induction l with
  | nil => rfl
  | cons a as ih =>
    obtain ⟨b, hb⟩ := Option.isSome_iff_exists.mp (h a (by simp))
    simp [List.filterMap_cons, hb,
      ih (fun c hc => h c (List.mem_cons_of_mem a hc))]

/-- The space-encoding pass leaves no space in its output. -/
theorem space_not_mem_encodeSpacesL (l : List Char) : ' ' ∉ encodeSpacesL l := by
  induction l with
  | nil => simp [encodeSpacesL]
  | cons c cs ih =>
    by_cases h : c = ' ' <;> simp [encodeSpacesL, h, ih]
    exact fun he => h he.symm

/-- A head match of a concatenation is a head match of its first part. -/
theorem startsWith_of_startsWith_append (p q t : List Char)
    (h : startsWith (p ++ q) t = true) : startsWith p t = true := by
  induction p generalizing t with
  | nil => rfl
  | cons a as ih =>
    cases t with
    | nil => simp [startsWith] at h
    | cons b bs =>
      simp only [List.cons_append, startsWith, Bool.and_eq_true] at h ⊢
      exact ⟨h.1, ih bs h.2⟩

/-- A substring occurrence of a concatenation yields one of its first part. -/
theorem containsSub_of_containsSub_append (p q h : List Char)
    (hc : containsSub (p ++ q) h = true) : containsSub p h = true := by
  induction h with
  | nil =>
    cases p with
    | nil => rfl
    | cons a as => simp [containsSub, startsWith] at hc
  | cons c cs ih =>
    simp only [containsSub, Bool.or_eq_true] at hc ⊢
    rcases hc with hc | hc
    · exact Or.inl (startsWith_of_startsWith_append p q _ hc)
    · exact Or.inr (ih hc)

/-! ## Claims -/

/-- C1: the experience level derived by the scrape pipeline's query
construction maps `years = 0` to the Internship bucket, `years ∈ {1,2}` to the
Entry bucket, `years ∈ {3,4,5}` to the Associate bucket, `years > 5` to the
Senior bucket, and absent years to no experience filter at all.  The buckets
are rendered by `main.py` as the level strings and by `linkedin_scraper` as
the `f_E` URL-filter suffixes; an absent years value leaves the search URL
without any `f_E` parameter. -/
theorem c1_experience_mapping (y : Int) :
    (experience_level_main 0 = "Internship" ∧ exp_filter_ls (some 0) = "&f_E=1")
    ∧ ((y = 1 ∨ y = 2) →
        experience_level_main y = "Entry level" ∧
          exp_filter_ls (some y) = "&f_E=1,2")
    ∧ ((y = 3 ∨ y = 4 ∨ y = 5) →
        experience_level_main y = "Associate" ∧
          exp_filter_ls (some y) = "&f_E=3,4")
    ∧ (5 < y →
        experience_level_main y = "Mid-Senior level" ∧
          exp_filter_ls (some y) = "&f_E=5,6")
    ∧ exp_filter_ls none = ""
    ∧ (∀ (skills : List String) (location : String),
        urlLSFull skills location none = urlLS skills location) := by
  refine ⟨⟨by decide, by decide⟩, ?_, ?_, ?_, rfl, ?_⟩
  · rintro (rfl | rfl) <;> exact ⟨by decide, by decide⟩
  · rintro (rfl | rfl | rfl) <;> exact ⟨by decide, by decide⟩
  · intro h
    have h0 : ¬(y = 0) := by omega
    have h2 : ¬(y ≤ 2) := by omega
    have h5 : ¬(y ≤ 5) := by omega
    constructor
    · unfold experience_level_main
      rw [if_neg h0, if_neg h2, if_neg h5]
    · show (if y = 0 then "&f_E=1" else if y ≤ 2 then "&f_E=1,2"
        else if y ≤ 5 then "&f_E=3,4" else "&f_E=5,6") = "&f_E=5,6"
      rw [if_neg h0, if_neg h2, if_neg h5]
  · intro skills location
    simp [urlLSFull, exp_filter_ls]

/-- Witness for C1 at concrete years values. -/
theorem c1_experience_mapping_witness :
    (experience_level_main 2 = "Entry level" ∧
      exp_filter_ls (some 2) = "&f_E=1,2")
    ∧ (experience_level_main 4 = "Associate" ∧
        exp_filter_ls (some 4) = "&f_E=3,4")
    ∧ (experience_level_main 9 = "Mid-Senior level" ∧
        exp_filter_ls (some 9) = "&f_E=5,6") :=
  ⟨(c1_experience_mapping 2).2.1 (Or.inr rfl),
   (c1_experience_mapping 4).2.2.1 (Or.inr (Or.inl rfl)),
   (c1_experience_mapping 9).2.2.2.1 (by decide)⟩

/-- C2 counterexample: on the spec's own example input, the resume pipeline's
email extraction returns the first raw match, NOT `jane@corp.com` — the
denylist is absent from `resume_parser.extract_email`. -/
theorem c2_email_first_match_counterexample :
    extract_email (toL "contact: noreply@corp.com, jane@corp.com") ≠
      some (toL "jane@corp.com") := by decide

/-- C2 amended: `resume_parser.extract_email` returns the first match of the
email pattern with no denylist (so the example yields `noreply@corp.com`),
while `linkedin_scraper.extract_email_from_text` finds all matches, discards
the denylisted ones case-insensitively, and returns the whole surviving list
in document order (so the example yields `[jane@corp.com]`). -/
theorem c2_email_extraction_amended :
    extract_email (toL "contact: noreply@corp.com, jane@corp.com") =
      some (toL "noreply@corp.com")
    ∧ extract_email_from_text (toL "contact: noreply@corp.com, jane@corp.com") =
        [toL "jane@corp.com"]
    ∧ (∀ s, extract_email s = (findAllEmails s).head?)
    ∧ (∀ s, extract_email_from_text s =
        (findAllEmails s).filter (fun e => !denylisted e)) := by
  refine ⟨by decide, by decide, fun s => rfl, fun s => ?_⟩
  cases s with
  | nil => rfl
  | cons c cs => rfl

/-- C3: PDF text extraction returns the concatenation of the pages' text in
document order with no separator, and a page with no extractable text (the
empty string) contributes nothing rather than causing an error.  The document
is modelled as the list of its pages' extracted text. -/
theorem c3_pdf_text_concat (pages xs ys : List String) :
    extract_text_from_pdf pages = concatPages pages
    ∧ extract_text_from_pdf (xs ++ "" :: ys) = extract_text_from_pdf (xs ++ ys) := by
  constructor
  · have h := foldl_append_concatPages pages ""
    simpa [extract_text_from_pdf] using h
  · unfold extract_text_from_pdf
    rw [foldl_append_concatPages, foldl_append_concatPages,
      concatPages_middle_empty]

/-- C4 counterexample: in `linkedin_scraper`, a card missing ONLY its location
is skipped — a one-card batch with title, company and link present but no
location element yields no listing, instead of a listing with the requested
location substituted. -/
theorem c4_location_skip_counterexample :
    extractJobsLS [⟨some "Engineer", some "Acme", none,
      some "linkedin.example/job"⟩] 10 = [] := by decide

/-- C4 amended: in both extractors a card whose title, company or link is
missing is skipped and extraction continues with the remaining cards in their
original relative order, never aborting the batch — for `main.py` the bad card
simply disappears from the output; for `linkedin_scraper` it parses to
nothing, and the enumerated card loop yields exactly the listings of the
cards before and after it, in order, with the index counter continuing past
the skipped card.  A card missing only its location is kept with the
originally requested location substituted in `main.py`'s extractor, but in
`linkedin_scraper` such a card is skipped as well. -/
theorem c4_card_skip_amended (xs ys : List Card) (b : Card) (mx k : Nat)
    (loc lvl : String)
    (hb : b.title_elem = none ∨ b.company_elem = none ∨ b.link_elem = none)
    (hlen : (xs ++ b :: ys).length ≤ mx * 2) :
    (xs ++ b :: ys).filterMap (parseCard loc lvl) =
      (xs ++ ys).filterMap (parseCard loc lvl)
    ∧ extractJobs (xs ++ b :: ys) mx loc lvl = extractJobs (xs ++ ys) mx loc lvl
    ∧ (∀ i, parseCardLS i b = none)
    ∧ (List.enumFrom k (xs ++ b :: ys)).filterMap
          (fun ic => parseCardLS ic.1 ic.2) =
        (List.enumFrom k xs).filterMap (fun ic => parseCardLS ic.1 ic.2) ++
          (List.enumFrom (k + xs.length + 1) ys).filterMap
            (fun ic => parseCardLS ic.1 ic.2)
    ∧ (∀ t co l, parseCard loc lvl ⟨some t, some co, none, some l⟩ =
        some ⟨pyStrip t, pyStrip co, loc, l, lvl⟩)
    ∧ (∀ i t co l, parseCardLS i ⟨some t, some co, none, some l⟩ = none) := by
  have hnone := parseCard_eq_none loc lvl b hb
  have hLSnone : ∀ i, parseCardLS i b = none :=
    fun i => parseCardLS_eq_none i b hb
  have hfm : (xs ++ b :: ys).filterMap (parseCard loc lvl) =
      (xs ++ ys).filterMap (parseCard loc lvl) := by
    simp [List.filterMap_append, List.filterMap_cons, hnone]
  refine ⟨hfm, ?_, hLSnone, ?_, fun t co l => rfl, fun i t co l => rfl⟩
  · have hlen2 : (xs ++ ys).length ≤ mx * 2 := by
      simp only [List.length_append, List.length_cons] at hlen ⊢
      omega
    unfold extractJobs
    rw [List.take_of_length_le hlen, List.take_of_length_le hlen2, hfm]
  · rw [enumFrom_append k xs (b :: ys)]
    simp only [List.enumFrom, List.filterMap_append, List.filterMap_cons,
      hLSnone]

/-- Witness for C4: ten cards, card #4 missing its title, extracted with the
batch intact — nine listings, in order, card #4 absent. -/
theorem c4_card_skip_amended_witness :
    (demoBad.title_elem = none ∨ demoBad.company_elem = none ∨
      demoBad.link_elem = none)
    ∧ ([demoCard "t1", demoCard "t2", demoCard "t3"] ++ demoBad ::
        [demoCard "t5", demoCard "t6", demoCard "t7", demoCard "t8",
         demoCard "t9", demoCard "t10"]).length ≤ 5 * 2
    ∧ ([demoCard "t1", demoCard "t2", demoCard "t3"] ++ demoBad ::
        [demoCard "t5", demoCard "t6", demoCard "t7", demoCard "t8",
         demoCard "t9", demoCard "t10"]).filterMap
          (parseCard "India" "Entry level") =
        ([demoCard "t1", demoCard "t2", demoCard "t3"] ++
          [demoCard "t5", demoCard "t6", demoCard "t7", demoCard "t8",
           demoCard "t9", demoCard "t10"]).filterMap
          (parseCard "India" "Entry level") :=
  ⟨Or.inl rfl, by decide,
    (c4_card_skip_amended [demoCard "t1", demoCard "t2", demoCard "t3"]
      [demoCard "t5", demoCard "t6", demoCard "t7", demoCard "t8",
       demoCard "t9", demoCard "t10"] demoBad 5 1 "India" "Entry level"
      (Or.inl rfl) (by decide)).1⟩

/-- C5: extraction never returns more than `maxJobs` listings, and over a page
whose first `2 * maxJobs` cards are all valid it returns exactly the first
`maxJobs` listings in document order, however many more cards remain; the
listing count of `linkedin_scraper`'s extractor is bounded by `maxJobs` as
well. -/
theorem c5_cap_semantics (cards more : List Card) (mx : Nat)
    (loc lvl : String)
    (hv : ∀ c ∈ cards, (parseCard loc lvl c).isSome)
    (hlen : mx * 2 ≤ cards.length) :
    extractJobs (cards ++ more) mx loc lvl =
      (cards.take mx).filterMap (parseCard loc lvl)
    ∧ (extractJobs (cards ++ more) mx loc lvl).length = mx
    ∧ (∀ cs : List Card, (extractJobs cs mx loc lvl).length ≤ mx)
    ∧ (∀ cs : List Card, (extractJobsLS cs mx).length ≤ mx) := by
  have htake : (cards ++ more).take (mx * 2) = cards.take (mx * 2) :=
    List.take_append_of_le_length hlen
  have hvtake : ∀ c ∈ cards.take (mx * 2), (parseCard loc lvl c).isSome :=
    fun c hc => hv c (List.mem_of_mem_take hc)
  have hmain : extractJobs (cards ++ more) mx loc lvl =
      (cards.take mx).filterMap (parseCard loc lvl) := by
    unfold extractJobs
    rw [htake, take_filterMap_of_isSome _ _ _ hvtake, List.take_take]
    have : min mx (mx * 2) = mx := by omega
    rw [this]
  refine ⟨hmain, ?_, ?_, ?_⟩
  · rw [hmain, length_filterMap_of_isSome _ _
      (fun c hc => hv c (List.mem_of_mem_take hc)), List.length_take]
    omega
  · intro cs
    exact List.length_take_le mx _
  · intro cs
    unfold extractJobsLS
    calc ((List.enumFrom 1 (cs.take mx)).filterMap
            (fun ic => parseCardLS ic.1 ic.2)).length
        ≤ (List.enumFrom 1 (cs.take mx)).length := List.length_filterMap_le _ _
      _ = (cs.take mx).length := by simp
      _ ≤ mx := List.length_take_le mx _

/-- Witness for C5: a page yielding 20 valid cards scraped with `maxJobs = 5`
returns exactly 5 listings. -/
theorem c5_cap_semantics_witness :
    (∀ c ∈ List.replicate 20 (demoCard "t"),
      (parseCard "India" "Entry level" c).isSome)
    ∧ 5 * 2 ≤ (List.replicate 20 (demoCard "t")).length
    ∧ (extractJobs (List.replicate 20 (demoCard "t") ++ []) 5 "India"
        "Entry level").length = 5 :=
  ⟨by decide, by decide,
    (c5_cap_semantics (List.replicate 20 (demoCard "t")) [] 5 "India"
      "Entry level" (by decide) (by decide)).2.1⟩

/-- C6 counterexample: `linkedin_scraper`'s query construction interpolates
the location unencoded — a location with a space puts a literal space into the
search URL. -/
theorem c6_url_encoding_counterexample :
    ' ' ∈ (urlLS ["python"] "New York").data := by decide

/-- C6 amended: both constructions use only the first 3 skills; `main.py`'s
construction returns a query and a location with every space replaced by
`%20`, while `linkedin_scraper` joins the first three skills with `+` and
leaves spaces in skills and location unencoded. -/
theorem c6_query_construction_amended (skills : List String)
    (location lvl : String) :
    buildQueryMain skills location lvl = buildQueryMain (skills.take 3) location lvl
    ∧ ' ' ∉ (buildQueryMain skills location lvl).1.data
    ∧ ' ' ∉ (buildQueryMain skills location lvl).2.data
    ∧ urlLS skills location = urlLS (skills.take 3) location
    ∧ buildQueryMain ["machine", "learning", "flask", "django"] "New York"
        "Entry level" =
        ("machine%20learning%20flask%20Entry%20level", "New%20York") := by
  refine ⟨?_, ?_, ?_, ?_, by decide⟩
  · simp [buildQueryMain, List.take_take]
  · exact space_not_mem_encodeSpacesL _
  · exact space_not_mem_encodeSpacesL _
  · simp [urlLS, keywordsLS, List.take_take]

/-- C7 counterexample: in `main.py`, the browser is constructed BEFORE the
`try` block, so a launch failure propagates out of the scrape call as an
exception instead of an empty result. -/
theorem c7_launch_propagation_counterexample :
    scrapeMain (Except.error "SessionNotCreatedException") [] 5 "India"
      "Entry level" = Except.error "SessionNotCreatedException" := rfl

/-- C7 amended: in `linkedin_scraper`, a browser-launch failure is absorbed and
the scrape yields the empty job list, which categorizes to an empty
`CategorizedJobs`; in `main.py`, the launch failure propagates to the caller
(the endpoint converts it to an HTTP 500 error), not an empty result. -/
theorem c7_launch_handling_amended (e : String) (cards cardsM : List Card)
    (mx : Nat) (loc lvl : String) :
    categorize_jobs (scrapeLS (Except.error e) cards mx) =
      { direct_contact_jobs := [], standard_jobs := [], total_jobs := 0,
        jobs_with_email := 0, jobs_without_email := 0 }
    ∧ scrapeMain (Except.error e) cardsM mx loc lvl = Except.error e :=
  ⟨rfl, rfl⟩

/-- C8: `categorize_jobs` partitions its input — the two output lengths sum to
the input length, every listing lands in exactly one output with its input
multiplicity, both outputs are order-preserving subsequences of the input, and
the three reported counters equal the corresponding lengths. -/
theorem c8_categorize_partition (jobs : List JobLS) :
    (categorize_jobs jobs).direct_contact_jobs.length +
      (categorize_jobs jobs).standard_jobs.length = jobs.length
    ∧ (∀ j : JobLS, (categorize_jobs jobs).direct_contact_jobs.count j +
        (categorize_jobs jobs).standard_jobs.count j = jobs.count j)
    ∧ List.Sublist (categorize_jobs jobs).direct_contact_jobs jobs
    ∧ List.Sublist (categorize_jobs jobs).standard_jobs jobs
    ∧ (categorize_jobs jobs).total_jobs = jobs.length
    ∧ (categorize_jobs jobs).jobs_with_email =
        (categorize_jobs jobs).direct_contact_jobs.length
    ∧ (categorize_jobs jobs).jobs_without_email =
        (categorize_jobs jobs).standard_jobs.length := by
  have hloop := categorizeLoop_eq_filter jobs
  refine ⟨?_, ?_, ?_, ?_, rfl, rfl, rfl⟩
  · simp [categorize_jobs, hloop,
      length_filter_add_length_filter_not hr_truthy jobs]
  · intro j
    simp [categorize_jobs, hloop,
      count_filter_add_count_filter_not hr_truthy jobs j]
  · simp [categorize_jobs, hloop]
  · simp [categorize_jobs, hloop]

/-- C9: phone extraction tries its four patterns in their fixed order and
returns the stripped leftmost match of the earliest pattern that matches
anywhere in the text (earlier patterns take precedence regardless of
position), or nothing when no pattern matches; on the spec's examples it
yields `+919876543210` and `9876543210`, and the country-code pattern beats an
earlier bare-digit occurrence. -/
theorem c9_phone_patterns (s : List Char) :
    extract_phone s =
      ((firstMatch matchPhone1At s).or ((firstMatch matchPhone2At s).or
        ((firstMatch matchPhone3At s).or
          (firstMatch matchPhone4At s)))).map stripSep
    ∧ extract_phone (toL "+91-9876543210") = some (toL "+919876543210")
    ∧ extract_phone (toL "9876543210") = some (toL "9876543210")
    ∧ extract_phone (toL "9876543210 then +91-1234567890") =
        some (toL "+911234567890")
    ∧ extract_phone (toL "no digits here") = none := by
  refine ⟨?_, by decide, by decide, by decide, by decide⟩
  unfold extract_phone
  cases h1 : firstMatch matchPhone1At s
  · cases h2 : firstMatch matchPhone2At s
    · cases h3 : firstMatch matchPhone3At s
      · cases h4 : firstMatch matchPhone4At s <;> simp [Option.or]
      · simp [Option.or]
    · simp [Option.or]
  · simp [Option.or]

/-- C10: any text containing `javascript` case-insensitively co-reports both
`Javascript` and `Java` in the extracted skills, because vocabulary membership
is a plain substring test and `java` is a substring of `javascript`. -/
theorem c10_substring_co_reporting (text : List Char)
    (h : containsSub (toL "javascript") (text.map Char.toLower) = true) :
    toL "Javascript" ∈ extract_skills text ∧ toL "Java" ∈ extract_skills text := by
  have hsplit : toL "javascript" = toL "java" ++ toL "script" := by decide
  have hjava : containsSub (toL "java") (text.map Char.toLower) = true := by
    refine containsSub_of_containsSub_append (toL "java") (toL "script") _ ?_
    rw [← hsplit]
    exact h
  constructor
  · simp only [extract_skills, List.mem_dedup]
    refine List.mem_map.mpr ⟨toL "javascript", ?_, by decide⟩
    exact List.mem_filter.mpr ⟨by decide, h⟩
  · simp only [extract_skills, List.mem_dedup]
    refine List.mem_map.mpr ⟨toL "java", ?_, by decide⟩
    exact List.mem_filter.mpr ⟨by decide, hjava⟩

/-- Witness for C10 on a concrete resume line. -/
theorem c10_substring_co_reporting_witness :
    containsSub (toL "javascript")
      ((toL "Senior JavaScript Developer").map Char.toLower) = true
    ∧ (toL "Javascript" ∈ extract_skills (toL "Senior JavaScript Developer")
       ∧ toL "Java" ∈ extract_skills (toL "Senior JavaScript Developer")) :=
  ⟨by decide,
    c10_substring_co_reporting (toL "Senior JavaScript Developer") (by decide)⟩

end JobFinder
